import Mathlib

set_option maxRecDepth 8192

/-!
Verification of the static-vs-dynamic dispatch benchmark harness
(src/static_traits.rs, src/no_traits.rs, src/main.rs, src/bench.rs).

The service layer of src/static_traits.rs is embedded shallowly:

* Rust structs become Lean structures with the same field names.
* u32 and u8 fields become Nat (the program only compares and copies them,
  never does arithmetic on them, so wrap-around cannot occur).
* f64 becomes the type F64 below: an explicit NaN plus exact rationals.
  IEEE rounding and infinities are not modelled; no claim in this
  development depends on the rounded value of any float, only on NaN
  behaviour (partial_cmp returning None) and on both dispatch variants
  computing the same function.
* Rust String::cmp is byte-wise lexicographic order on UTF-8, which
  coincides with lexicographic order on unicode code points; charListLe
  below implements that order on the code points of the string.
* Rust String::to_uppercase is modelled by strUpper, ASCII uppercasing;
  every string the claims inspect is ASCII.
* Vec::sort_by is a stable sort; it is modelled by the stable insertion
  sort List.insertionSort from Mathlib (for infallible comparators) and
  by sortByM below (for the f64 comparators that unwrap partial_cmp and
  can therefore abort on NaN; abort is modelled as Option.none).
* methods taking &self cannot mutate the service, so a Rust method
  fn f(&self, ..) -> () whose only effect is to build, sort and discard a
  clone of the backing collection is embedded as a function returning the
  unchanged service (wrapped in Option when a sort comparison can abort).
-/

/-- Model of f64: an explicit NaN plus exact rational values. Rounding and
infinities are not modelled (see the header comment). -/
inductive F64 where
  | nan
  | val (q : ℚ)
deriving DecidableEq, Repr

/-- Multiplication on the f64 model; NaN is absorbing, as in IEEE when one
operand is NaN. -/
def F64.mul : F64 → F64 → F64
  | .val a, .val b => .val (a * b)
  | _, _ => .nan

/-- Addition on the f64 model; NaN is absorbing. -/
def F64.add : F64 → F64 → F64
  | .val a, .val b => .val (a + b)
  | _, _ => .nan

/-- Division on the f64 model; NaN is absorbing. The program only ever
divides by the literal 1.1, so division by zero is mapped to NaN without
affecting any claim. -/
def F64.div : F64 → F64 → F64
  | .val a, .val b => if b = 0 then .nan else .val (a / b)
  | _, _ => .nan

/-- Test for NaN. -/
def F64.isNaN : F64 → Bool
  | .nan => true
  | .val _ => false

/-- Model of f64::partial_cmp: None exactly when one operand is NaN. -/
def F64.cmpO : F64 → F64 → Option Ordering
  | .nan, _ => none
  | .val _, .nan => none
  | .val a, .val b => some (compare a b)

/-- The f64 literal 1.1 of the source (as an exact rational). -/
def c11 : F64 := F64.val (11 / 10)

/-- Sum of a list of f64 values, folding from the left starting at 0.0,
as Iterator::sum does. -/
def fsum (l : List F64) : F64 := l.foldl F64.add (F64.val 0)

/-- Lexicographic order on code-point lists; equals the byte-wise
lexicographic order that Rust String::cmp uses, because UTF-8 byte order
coincides with code-point order. -/
def charListLe : List Char → List Char → Bool
  | [], _ => true
  | _ :: _, [] => false
  | a :: as, b :: bs =>
    if a.toNat < b.toNat then true
    else if b.toNat < a.toNat then false
    else charListLe as bs

/-- String comparison: the order Rust String::cmp sorts by. -/
def strLeB (a b : String) : Bool := charListLe a.data b.data

/-- ASCII uppercasing of one character; model of what char::to_uppercase
does on the ASCII strings this program handles. -/
def asciiUpper (c : Char) : Char :=
  if 97 ≤ c.toNat ∧ c.toNat ≤ 122 then Char.ofNat (c.toNat - 32) else c

/-- Model of String::to_uppercase (ASCII range; see header comment). -/
def strUpper (s : String) : String := ⟨s.data.map asciiUpper⟩

/-- Stable insertion into a sorted list under a fallible comparator;
models one placement step of Vec::sort_by when the comparator is
partial_cmp(..).unwrap(): a comparison returning None aborts the whole
sort (Option.none = the unwrap panic). -/
def insertM (cmp : α → α → Option Ordering) (a : α) : List α → Option (List α)
  | [] => some [a]
  | b :: l =>
    match cmp a b with
    | none => none
    | some Ordering.gt => (insertM cmp a l).map (fun t => b :: t)
    | some _ => some (a :: b :: l)

/-- Stable sort under a fallible comparator; models Vec::sort_by with a
comparator that unwraps partial_cmp. The element order produced agrees
with any stable sort; the set of aborting inputs of the concrete Rust
sort implementation is implementation defined, and no claim depends on
it beyond the comparator itself (see claim C7). -/
def sortByM (cmp : α → α → Option Ordering) : List α → Option (List α)
  | [] => some []
  | a :: l =>
    match sortByM cmp l with
    | none => none
    | some t => insertM cmp a t

/-- A for-loop of n passes whose body can abort: models
for _ in 0..n { .. } around fallible sorts. -/
def loopM (f : α → Option α) : Nat → α → Option α
  | 0, a => some a
  | n + 1, a =>
    match f a with
    | none => none
    | some b => loopM f n b

/-- Model of Vec::dedup: remove consecutive repeated elements, keeping the
first of each run. -/
def dedupConsec [BEq α] : List α → List α
  | [] => []
  | [a] => [a]
  | a :: b :: l => if a == b then dedupConsec (a :: l) else a :: dedupConsec (b :: l)
termination_by l => l.length

/-- Dog (src/static_traits.rs). -/
structure Dog where
  id : String
  name : String
  age : Nat
deriving DecidableEq, Repr

/-- GroomingRecord (src/static_traits.rs). -/
structure GroomingRecord where
  dog_id : String
  date : String
  service_type : String
  price : F64
deriving DecidableEq, Repr

/-- TrainingRecord (src/static_traits.rs); proficiency_level is u8. -/
structure TrainingRecord where
  dog_id : String
  skill : String
  proficiency_level : Nat
  last_trained : String
deriving DecidableEq, Repr

/-- HealthRecord (src/static_traits.rs). -/
structure HealthRecord where
  dog_id : String
  weight : F64
  vaccinations : List String
  last_checkup : String
deriving DecidableEq, Repr

/-- DogHouse (src/static_traits.rs). -/
structure DogHouse where
  id : String
  size : String
  material : String
  assigned_dog_id : Option String
deriving DecidableEq, Repr

/-! Sort-key relations. Each models one Rust sort_by comparator: the
relation holds when the comparator returns Less or Equal, so that the
stable insertion sort below reproduces the stable Vec::sort_by. -/

/-- Comparator a.name.cmp(&b.name) of DogRepository::get_dogs. -/
def nameLe (a b : Dog) : Prop := strLeB a.name b.name = true

/-- Comparator a.age.cmp(&b.age) of DogRepository::get_dogs. -/
def ageLe (a b : Dog) : Prop := a.age ≤ b.age

/-- Comparator a.id.cmp(&b.id) of DogRepository::get_dogs. -/
def idLe (a b : Dog) : Prop := strLeB a.id b.id = true

instance : DecidableRel nameLe :=
  fun a b => inferInstanceAs (Decidable (strLeB a.name b.name = true))

instance : DecidableRel ageLe :=
  fun a b => inferInstanceAs (Decidable (a.age ≤ b.age))

instance : DecidableRel idLe :=
  fun a b => inferInstanceAs (Decidable (strLeB a.id b.id = true))

/-- Comparator a.date.cmp(&b.date) of add_grooming_record. -/
def gDateLe (a b : GroomingRecord) : Prop := strLeB a.date b.date = true

instance : DecidableRel gDateLe :=
  fun a b => inferInstanceAs (Decidable (strLeB a.date b.date = true))

/-- Fallible comparator a.price.partial_cmp(&b.price).unwrap() of
add_grooming_record. -/
def gPriceCmp (a b : GroomingRecord) : Option Ordering := F64.cmpO a.price b.price

/-- Comparator a.last_trained.cmp(&b.last_trained) of add_training_record. -/
def tDateLe (a b : TrainingRecord) : Prop := strLeB a.last_trained b.last_trained = true

instance : DecidableRel tDateLe :=
  fun a b => inferInstanceAs (Decidable (strLeB a.last_trained b.last_trained = true))

/-- Comparator a.proficiency_level.cmp(&b.proficiency_level) of
add_training_record. -/
def tProfLe (a b : TrainingRecord) : Prop := a.proficiency_level ≤ b.proficiency_level

instance : DecidableRel tProfLe :=
  fun a b => inferInstanceAs (Decidable (a.proficiency_level ≤ b.proficiency_level))

/-- Comparator a.last_checkup.cmp(&b.last_checkup) of add_health_record. -/
def hDateLe (a b : HealthRecord) : Prop := strLeB a.last_checkup b.last_checkup = true

instance : DecidableRel hDateLe :=
  fun a b => inferInstanceAs (Decidable (strLeB a.last_checkup b.last_checkup = true))

/-- Fallible comparator a.weight.partial_cmp(&b.weight).unwrap() of
add_health_record. -/
def hWeightCmp (a b : HealthRecord) : Option Ordering := F64.cmpO a.weight b.weight

/-- Comparator a.id.cmp(&b.id) of add_dog_house. -/
def houseIdLe (a b : DogHouse) : Prop := strLeB a.id b.id = true

instance : DecidableRel houseIdLe :=
  fun a b => inferInstanceAs (Decidable (strLeB a.id b.id = true))

/-- Comparator a.size.cmp(&b.size) of add_dog_house. -/
def houseSizeLe (a b : DogHouse) : Prop := strLeB a.size b.size = true

instance : DecidableRel houseSizeLe :=
  fun a b => inferInstanceAs (Decidable (strLeB a.size b.size = true))

/-- Comparator on Vec<String> sort() in get_dog_skills. -/
def skillLe (a b : String) : Prop := strLeB a b = true

instance : DecidableRel skillLe :=
  fun a b => inferInstanceAs (Decidable (strLeB a b = true))

/-- Comparator a.0.cmp(&b.0) on (String, f64) pairs in
get_dog_weight_history. -/
def pairFstLe (a b : String × F64) : Prop := strLeB a.fst b.fst = true

instance : DecidableRel pairFstLe :=
  fun a b => inferInstanceAs (Decidable (strLeB a.fst b.fst = true))

/-! The five service structs and their operations (src/static_traits.rs). -/

/-- DogRepository: the only service whose add operation persists. -/
structure DogRepository where
  dogs : List Dog
deriving DecidableEq, Repr

/-- DogRepository::new. -/
def DogRepository.new : DogRepository := ⟨[]⟩

/-- DogRepository::add_dog (takes &mut self and pushes). -/
def DogRepository.add_dog (s : DogRepository) (dog : Dog) : DogRepository :=
  ⟨s.dogs ++ [dog]⟩

/-- One iteration of the DogRepository::get_dogs workload loop: three
consecutive stable sorts, by name, then age, then id. -/
def dogSortPass (l : List Dog) : List Dog :=
  List.insertionSort idLe (List.insertionSort ageLe (List.insertionSort nameLe l))

/-- DogRepository::get_dogs: clone the collection and run the triple-sort
pass 1000 times. -/
def DogRepository.get_dogs (s : DogRepository) : List Dog :=
  dogSortPass^[1000] s.dogs

/-- GroomingService. -/
structure GroomingService where
  records : List GroomingRecord
deriving DecidableEq, Repr

/-- GroomingService::new. -/
def GroomingService.new : GroomingService := ⟨[]⟩

/-- One iteration of the add_grooming_record workload loop: stable sort by
date, then stable sort by price; the price comparison unwraps partial_cmp
and aborts on NaN. -/
def groomAddPass (l : List GroomingRecord) : Option (List GroomingRecord) :=
  sortByM gPriceCmp (List.insertionSort gDateLe l)

/-- GroomingService::add_grooming_record (takes &self): clone the records,
push the new record onto the clone, sort the clone 500 times and discard
it. The backing collection is untouched; none models the process abort
when a price comparison hits NaN. -/
def GroomingService.add_grooming_record (s : GroomingService) (record : GroomingRecord) :
    Option GroomingService :=
  match loopM groomAddPass 500 (s.records ++ [record]) with
  | none => none
  | some _ => some s

/-- One iteration of the get_grooming_history workload loop: filter by
dog_id, uppercase service_type, multiply price by 1.1. -/
def groomHistPass (dogId : String) (l : List GroomingRecord) : List GroomingRecord :=
  (l.filter fun r => r.dog_id == dogId).map fun r =>
    { dog_id := r.dog_id, date := r.date,
      service_type := strUpper r.service_type, price := F64.mul r.price c11 }

/-- GroomingService::get_grooming_history: 300 filter-map passes, each fed
the output of the previous one. -/
def GroomingService.get_grooming_history (s : GroomingService) (dogId : String) :
    List GroomingRecord :=
  (groomHistPass dogId)^[300] s.records

/-- GroomingService::calculate_total_grooming_cost: 200 iterations, each
overwriting total with the sum of prices, then multiplying and dividing
by 1.1. -/
def GroomingService.calculate_total_grooming_cost (s : GroomingService) (dogId : String) : F64 :=
  let records := s.get_grooming_history dogId
  (fun _ => F64.div (F64.mul (fsum (records.map (·.price))) c11) c11)^[200] (F64.val 0)

/-- TrainingService. -/
structure TrainingService where
  records : List TrainingRecord
deriving DecidableEq, Repr

/-- TrainingService::new. -/
def TrainingService.new : TrainingService := ⟨[]⟩

/-- One iteration of the add_training_record workload loop: stable sort by
last_trained, then by proficiency_level (both comparators total, no
abort). -/
def trainAddPass (l : List TrainingRecord) : List TrainingRecord :=
  List.insertionSort tProfLe (List.insertionSort tDateLe l)

/-- TrainingService::add_training_record (takes &self): sort a clone 400
times and discard it; the backing collection is untouched. -/
def TrainingService.add_training_record (s : TrainingService) (record : TrainingRecord) :
    TrainingService :=
  let _ := trainAddPass^[400] (s.records ++ [record])
  s

/-- One iteration of the get_training_history workload loop: filter by
dog_id and uppercase skill. -/
def trainHistPass (dogId : String) (l : List TrainingRecord) : List TrainingRecord :=
  (l.filter fun r => r.dog_id == dogId).map fun r =>
    { dog_id := r.dog_id, skill := strUpper r.skill,
      proficiency_level := r.proficiency_level, last_trained := r.last_trained }

/-- TrainingService::get_training_history: 300 chained filter-map passes. -/
def TrainingService.get_training_history (s : TrainingService) (dogId : String) :
    List TrainingRecord :=
  (trainHistPass dogId)^[300] s.records

/-- TrainingService::get_dog_skills: 200 iterations, each overwriting
skills with the sorted, deduplicated skill list of the history. -/
def TrainingService.get_dog_skills (s : TrainingService) (dogId : String) : List String :=
  let records := s.get_training_history dogId
  (fun _ => dedupConsec (List.insertionSort skillLe (records.map (·.skill))))^[200] []

/-- HealthService. -/
structure HealthService where
  records : List HealthRecord
deriving DecidableEq, Repr

/-- HealthService::new. -/
def HealthService.new : HealthService := ⟨[]⟩

/-- One iteration of the add_health_record workload loop: stable sort by
last_checkup, then by weight; the weight comparison unwraps partial_cmp
and aborts on NaN. -/
def healthAddPass (l : List HealthRecord) : Option (List HealthRecord) :=
  sortByM hWeightCmp (List.insertionSort hDateLe l)

/-- HealthService::add_health_record (takes &self): sort a clone 400 times
and discard it; none models the NaN abort. -/
def HealthService.add_health_record (s : HealthService) (record : HealthRecord) :
    Option HealthService :=
  match loopM healthAddPass 400 (s.records ++ [record]) with
  | none => none
  | some _ => some s

/-- One iteration of the get_health_history workload loop: filter by
dog_id, multiply weight by 1.1, uppercase each vaccination. -/
def healthHistPass (dogId : String) (l : List HealthRecord) : List HealthRecord :=
  (l.filter fun r => r.dog_id == dogId).map fun r =>
    { dog_id := r.dog_id, weight := F64.mul r.weight c11,
      vaccinations := r.vaccinations.map strUpper, last_checkup := r.last_checkup }

/-- HealthService::get_health_history: 300 chained filter-map passes. -/
def HealthService.get_health_history (s : HealthService) (dogId : String) :
    List HealthRecord :=
  (healthHistPass dogId)^[300] s.records

/-- HealthService::get_dog_weight_history: 200 iterations, each overwriting
history with the (last_checkup, weight) pairs sorted by checkup date. -/
def HealthService.get_dog_weight_history (s : HealthService) (dogId : String) :
    List (String × F64) :=
  let records := s.get_health_history dogId
  (fun _ => List.insertionSort pairFstLe (records.map fun r => (r.last_checkup, r.weight)))^[200] []

/-- DogHouseService. -/
structure DogHouseService where
  houses : List DogHouse
deriving DecidableEq, Repr

/-- DogHouseService::new. -/
def DogHouseService.new : DogHouseService := ⟨[]⟩

/-- One iteration of the add_dog_house workload loop: stable sort by id,
then by size (both comparators total). -/
def houseAddPass (l : List DogHouse) : List DogHouse :=
  List.insertionSort houseSizeLe (List.insertionSort houseIdLe l)

/-- DogHouseService::add_dog_house (takes &self): sort a clone 400 times
and discard it; the backing collection is untouched. -/
def DogHouseService.add_dog_house (s : DogHouseService) (house : DogHouse) : DogHouseService :=
  let _ := houseAddPass^[400] (s.houses ++ [house])
  s

/-- One iteration of the assign_dog_to_house workload loop: set
assigned_dog_id on the house with matching id. -/
def assignPass (dogId houseId : String) (l : List DogHouse) : List DogHouse :=
  l.map fun h =>
    if h.id == houseId then
      { id := h.id, size := h.size, material := h.material, assigned_dog_id := some dogId }
    else h

/-- DogHouseService::assign_dog_to_house (takes &self): run 300 map passes
on a clone and discard it; the backing collection is untouched. -/
def DogHouseService.assign_dog_to_house (s : DogHouseService) (dogId houseId : String) :
    DogHouseService :=
  let _ := (assignPass dogId houseId)^[300] s.houses
  s

/-- One iteration of the get_dog_house workload loop: keep the houses whose
assigned_dog_id matches. -/
def houseFilterPass (dogId : String) (l : List DogHouse) : List DogHouse :=
  l.filter fun h => h.assigned_dog_id == some dogId

/-- DogHouseService::get_dog_house: 200 chained filter passes, then the
first survivor. -/
def DogHouseService.get_dog_house (s : DogHouseService) (dogId : String) : Option DogHouse :=
  ((houseFilterPass dogId)^[200] s.houses).head?

/-- One iteration of the get_available_houses workload loop: keep the
unassigned houses and uppercase their size. -/
def availPass (l : List DogHouse) : List DogHouse :=
  (l.filter fun h => h.assigned_dog_id.isNone).map fun h =>
    { id := h.id, size := strUpper h.size, material := h.material, assigned_dog_id := none }

/-- DogHouseService::get_available_houses: 300 chained filter-map passes. -/
def DogHouseService.get_available_houses (s : DogHouseService) : List DogHouse :=
  availPass^[300] s.houses

/-- DogService wrapping the repository (the generic parameter R of the
source is instantiated at its only concrete implementation,
DogRepository). -/
structure DogService where
  dog_repository : DogRepository
deriving DecidableEq, Repr

/-- DogService::add_dog: delegates to the repository (write lock). -/
def DogService.add_dog (s : DogService) (dog : Dog) : DogService :=
  ⟨s.dog_repository.add_dog dog⟩

/-- The per-element transform of the DogService::get_dogs loop body:
append "_processed" to the id, uppercase the name, keep the age. -/
def dogTransform (d : Dog) : Dog :=
  { id := d.id ++ "_processed", name := strUpper d.name, age := d.age }

/-- One iteration of the DogService::get_dogs workload loop: filter
age > 1, then apply dogTransform. -/
def dogProcPass (l : List Dog) : List Dog :=
  (l.filter fun d => decide (1 < d.age)).map dogTransform

/-- DogService::get_dogs: read the repository (its 1000-pass triple sort),
then run the filter-map pass 500 times, each pass fed the previous
output. -/
def DogService.get_dogs (s : DogService) : List Dog :=
  dogProcPass^[500] s.dog_repository.get_dogs

/-! The JSON values do_stuff builds. serde_json object maps are ordered by
key (BTreeMap), so every object below lists its fields in ascending key
order; two equal Json trees therefore serialize to identical bytes. -/

/-- JSON value tree, mirroring serde_json::Value as far as this program
produces it (nat covers the u32 age and u8 proficiency_level fields,
num the f64 fields). -/
inductive Json where
  | null
  | str (s : String)
  | nat (n : Nat)
  | num (x : F64)
  | arr (xs : List Json)
  | obj (fields : List (String × Json))

/-- Serialization of Dog (derived Serialize; keys in BTreeMap order). -/
def Dog.toJson (d : Dog) : Json :=
  Json.obj [("age", Json.nat d.age), ("id", Json.str d.id), ("name", Json.str d.name)]

/-- Serialization of GroomingRecord. -/
def GroomingRecord.toJson (r : GroomingRecord) : Json :=
  Json.obj [("date", Json.str r.date), ("dog_id", Json.str r.dog_id),
    ("price", Json.num r.price), ("service_type", Json.str r.service_type)]

/-- Serialization of TrainingRecord. -/
def TrainingRecord.toJson (r : TrainingRecord) : Json :=
  Json.obj [("dog_id", Json.str r.dog_id), ("last_trained", Json.str r.last_trained),
    ("proficiency_level", Json.nat r.proficiency_level), ("skill", Json.str r.skill)]

/-- Serialization of HealthRecord. -/
def HealthRecord.toJson (r : HealthRecord) : Json :=
  Json.obj [("dog_id", Json.str r.dog_id), ("last_checkup", Json.str r.last_checkup),
    ("vaccinations", Json.arr (r.vaccinations.map Json.str)), ("weight", Json.num r.weight)]

/-- Serialization of DogHouse. -/
def DogHouse.toJson (h : DogHouse) : Json :=
  Json.obj [("assigned_dog_id", match h.assigned_dog_id with
      | none => Json.null
      | some s => Json.str s),
    ("id", Json.str h.id), ("material", Json.str h.material), ("size", Json.str h.size)]

/-- Serialization of a (String, f64) weight-history entry (serde encodes a
tuple as a two-element array). -/
def pairToJson (p : String × F64) : Json :=
  Json.arr [Json.str p.fst, Json.num p.snd]

/-- Serialization of Option<DogHouse> in the housing field. -/
def optHouseToJson : Option DogHouse → Json
  | none => Json.null
  | some h => h.toJson

/-- AppState: the five collaborators do_stuff fans out over. -/
structure AppState where
  dog_service : DogService
  grooming_service : GroomingService
  training_service : TrainingService
  health_service : HealthService
  dog_house_service : DogHouseService

/-- The per-dog body of the do_stuff loop: gather grooming history and
total cost, training history and skills, health history and weight
history, and the assigned house, and assemble the nested dog_info
object. -/
def dogInfoJson (st : AppState) (dog : Dog) : Json :=
  let grooming_history := st.grooming_service.get_grooming_history dog.id
  let total_grooming_cost := st.grooming_service.calculate_total_grooming_cost dog.id
  let training_history := st.training_service.get_training_history dog.id
  let skills := st.training_service.get_dog_skills dog.id
  let health_history := st.health_service.get_health_history dog.id
  let weight_history := st.health_service.get_dog_weight_history dog.id
  let dog_house := st.dog_house_service.get_dog_house dog.id
  Json.obj [
    ("dog", dog.toJson),
    ("grooming", Json.obj [("history", Json.arr (grooming_history.map GroomingRecord.toJson)),
      ("total_cost", Json.num total_grooming_cost)]),
    ("health", Json.obj [("history", Json.arr (health_history.map HealthRecord.toJson)),
      ("weight_history", Json.arr (weight_history.map pairToJson))]),
    ("housing", optHouseToJson dog_house),
    ("training", Json.obj [("history", Json.arr (training_history.map TrainingRecord.toJson)),
      ("skills", Json.arr (skills.map Json.str))])]

/-- The do_stuff handler: list the dogs, build one dog_info per dog in
list order, fetch the available houses, and assemble the response. All
collaborator calls take &self, so the application state comes back
unchanged; the returned pair makes that explicit. -/
def do_stuff (st : AppState) : Json × AppState :=
  let dogs := st.dog_service.get_dogs
  let results := dogs.map (dogInfoJson st)
  let available_houses := st.dog_house_service.get_available_houses
  (Json.obj [("available_houses", Json.arr (available_houses.map DogHouse.toJson)),
    ("dogs_info", Json.arr results)], st)

/-- The state() seeding function: a fresh repository with Max, Luna and
Charlie pushed in that order, and fresh (empty) auxiliary services. -/
def seedAppState : AppState :=
  { dog_service :=
      ⟨((DogRepository.new.add_dog ⟨"1", "Max", 5⟩).add_dog
          ⟨"2", "Luna", 3⟩).add_dog ⟨"3", "Charlie", 2⟩⟩,
    grooming_service := GroomingService.new,
    training_service := TrainingService.new,
    health_service := HealthService.new,
    dog_house_service := DogHouseService.new }

/-- A sequence of n GET /stuff requests against one application state:
each request runs do_stuff and threads the (unchanged) state into the
next request; the responses are collected in order. -/
def serveStuff : Nat → AppState → List Json
  | 0, _ => []
  | n + 1, st => (do_stuff st).fst :: serveStuff n (do_stuff st).snd

/-! The dynamic-dispatch variant. Its source file (src/dyn_traits.rs) is
referenced by src/main.rs and src/bench.rs but is not part of the
source tree given here; the definitions in this namespace are modelled
from the spec, which fixes the variant completely: it exposes the same
operation set over the same data with the same workload constants as the
static variant, differing only in how calls are dispatched (through an
indirection table), a distinction with no observable effect on values.
Every definition below therefore repeats the corresponding static-variant
logic; claim C1 proves the two pipelines produce identical responses. -/

namespace Dyn

/-- Modelled from the spec: dyn_traits.rs DogRepository::add_dog — append
and persist, as in the static variant. -/
def repoAddDog (s : DogRepository) (dog : Dog) : DogRepository :=
  ⟨s.dogs ++ [dog]⟩

/-- Modelled from the spec: the triple-sort pass (name, then age, then id)
of dyn_traits.rs DogRepository::get_dogs. -/
def dogSortPass (l : List Dog) : List Dog :=
  List.insertionSort idLe (List.insertionSort ageLe (List.insertionSort nameLe l))

/-- Modelled from the spec: dyn_traits.rs DogRepository::get_dogs with the
same 1000-pass constant. -/
def repoGetDogs (s : DogRepository) : List Dog :=
  dogSortPass^[1000] s.dogs

/-- Modelled from the spec: the filter-and-rename pass of dyn_traits.rs
DogService::get_dogs. -/
def dogProcPass (l : List Dog) : List Dog :=
  (l.filter fun d => decide (1 < d.age)).map fun d =>
    { id := d.id ++ "_processed", name := strUpper d.name, age := d.age }

/-- Modelled from the spec: dyn_traits.rs DogService::get_dogs with the
same 500-pass constant. -/
def serviceGetDogs (s : DogService) : List Dog :=
  dogProcPass^[500] (repoGetDogs s.dog_repository)

/-- Modelled from the spec: the filter-map pass of dyn_traits.rs
get_grooming_history. -/
def groomHistPass (dogId : String) (l : List GroomingRecord) : List GroomingRecord :=
  (l.filter fun r => r.dog_id == dogId).map fun r =>
    { dog_id := r.dog_id, date := r.date,
      service_type := strUpper r.service_type, price := F64.mul r.price c11 }

/-- Modelled from the spec: dyn_traits.rs get_grooming_history with the
same 300-pass constant. -/
def getGroomingHistory (s : GroomingService) (dogId : String) : List GroomingRecord :=
  (groomHistPass dogId)^[300] s.records

/-- Modelled from the spec: dyn_traits.rs calculate_total_grooming_cost
with the same 200-pass constant. -/
def calcTotalGroomingCost (s : GroomingService) (dogId : String) : F64 :=
  let records := getGroomingHistory s dogId
  (fun _ => F64.div (F64.mul (fsum (records.map (·.price))) c11) c11)^[200] (F64.val 0)

/-- Modelled from the spec: the filter-map pass of dyn_traits.rs
get_training_history. -/
def trainHistPass (dogId : String) (l : List TrainingRecord) : List TrainingRecord :=
  (l.filter fun r => r.dog_id == dogId).map fun r =>
    { dog_id := r.dog_id, skill := strUpper r.skill,
      proficiency_level := r.proficiency_level, last_trained := r.last_trained }

/-- Modelled from the spec: dyn_traits.rs get_training_history with the
same 300-pass constant. -/
def getTrainingHistory (s : TrainingService) (dogId : String) : List TrainingRecord :=
  (trainHistPass dogId)^[300] s.records

/-- Modelled from the spec: dyn_traits.rs get_dog_skills with the same
200-pass constant. -/
def getDogSkills (s : TrainingService) (dogId : String) : List String :=
  let records := getTrainingHistory s dogId
  (fun _ => dedupConsec (List.insertionSort skillLe (records.map (·.skill))))^[200] []

/-- Modelled from the spec: the filter-map pass of dyn_traits.rs
get_health_history. -/
def healthHistPass (dogId : String) (l : List HealthRecord) : List HealthRecord :=
  (l.filter fun r => r.dog_id == dogId).map fun r =>
    { dog_id := r.dog_id, weight := F64.mul r.weight c11,
      vaccinations := r.vaccinations.map strUpper, last_checkup := r.last_checkup }

/-- Modelled from the spec: dyn_traits.rs get_health_history with the same
300-pass constant. -/
def getHealthHistory (s : HealthService) (dogId : String) : List HealthRecord :=
  (healthHistPass dogId)^[300] s.records

/-- Modelled from the spec: dyn_traits.rs get_dog_weight_history with the
same 200-pass constant. -/
def getDogWeightHistory (s : HealthService) (dogId : String) : List (String × F64) :=
  let records := getHealthHistory s dogId
  (fun _ => List.insertionSort pairFstLe (records.map fun r => (r.last_checkup, r.weight)))^[200] []

/-- Modelled from the spec: the filter pass of dyn_traits.rs
get_dog_house. -/
def houseFilterPass (dogId : String) (l : List DogHouse) : List DogHouse :=
  l.filter fun h => h.assigned_dog_id == some dogId

/-- Modelled from the spec: dyn_traits.rs get_dog_house with the same
200-pass constant. -/
def getDogHouse (s : DogHouseService) (dogId : String) : Option DogHouse :=
  ((houseFilterPass dogId)^[200] s.houses).head?

/-- Modelled from the spec: the filter-map pass of dyn_traits.rs
get_available_houses. -/
def availPass (l : List DogHouse) : List DogHouse :=
  (l.filter fun h => h.assigned_dog_id.isNone).map fun h =>
    { id := h.id, size := strUpper h.size, material := h.material, assigned_dog_id := none }

/-- Modelled from the spec: dyn_traits.rs get_available_houses with the
same 300-pass constant. -/
def getAvailableHouses (s : DogHouseService) : List DogHouse :=
  availPass^[300] s.houses

/-- Modelled from the spec: the per-dog aggregation body of dyn_traits.rs
do_stuff, identical fan-out and JSON shape. -/
def dogInfoJson (st : AppState) (dog : Dog) : Json :=
  let grooming_history := getGroomingHistory st.grooming_service dog.id
  let total_grooming_cost := calcTotalGroomingCost st.grooming_service dog.id
  let training_history := getTrainingHistory st.training_service dog.id
  let skills := getDogSkills st.training_service dog.id
  let health_history := getHealthHistory st.health_service dog.id
  let weight_history := getDogWeightHistory st.health_service dog.id
  let dog_house := getDogHouse st.dog_house_service dog.id
  Json.obj [
    ("dog", dog.toJson),
    ("grooming", Json.obj [("history", Json.arr (grooming_history.map GroomingRecord.toJson)),
      ("total_cost", Json.num total_grooming_cost)]),
    ("health", Json.obj [("history", Json.arr (health_history.map HealthRecord.toJson)),
      ("weight_history", Json.arr (weight_history.map pairToJson))]),
    ("housing", optHouseToJson dog_house),
    ("training", Json.obj [("history", Json.arr (training_history.map TrainingRecord.toJson)),
      ("skills", Json.arr (skills.map Json.str))])]

/-- Modelled from the spec: dyn_traits.rs do_stuff — same aggregation over
the dynamically dispatched collaborators. -/
def do_stuff (st : AppState) : Json × AppState :=
  let dogs := serviceGetDogs st.dog_service
  let results := dogs.map (dogInfoJson st)
  let available_houses := getAvailableHouses st.dog_house_service
  (Json.obj [("available_houses", Json.arr (available_houses.map DogHouse.toJson)),
    ("dogs_info", Json.arr results)], st)

/-- Modelled from the spec: dyn_traits.rs state() seeds the same three
dogs Max, Luna, Charlie in the same order into fresh services. -/
def seedAppState : AppState :=
  { dog_service :=
      ⟨repoAddDog (repoAddDog (repoAddDog DogRepository.new ⟨"1", "Max", 5⟩)
          ⟨"2", "Luna", 3⟩) ⟨"3", "Charlie", 2⟩⟩,
    grooming_service := GroomingService.new,
    training_service := TrainingService.new,
    health_service := HealthService.new,
    dog_house_service := DogHouseService.new }

/-- A sequence of n GET /stuff requests against the dynamic variant. -/
def serveStuff : Nat → AppState → List Json
  | 0, _ => []
  | n + 1, st => (do_stuff st).fst :: serveStuff n (do_stuff st).snd

end Dyn

/-! Concrete fixtures used by counterexamples and witnesses. -/

/-- The three seeded dogs in insertion order. -/
def dogs0 : List Dog := [⟨"1", "Max", 5⟩, ⟨"2", "Luna", 3⟩, ⟨"3", "Charlie", 2⟩]

/-- A sample grooming record with a non-NaN price. -/
def grec0 : GroomingRecord := ⟨"1", "2024-01-01", "bath", F64.val 50⟩

/-- A sample health record with a non-NaN weight. -/
def hrec0 : HealthRecord := ⟨"1", F64.val 12, ["rabies"], "2024-01-01"⟩

/-- Lexicographic combination of two sort keys. -/
def lexComb (r s : α → α → Prop) (a b : α) : Prop := r a b ∧ (r b a → s a b)

/-- The full sort key of the triple sort: id first, ties by age, then by
name (the later sorts of the source dominate the earlier ones because
each sort is stable). -/
def dogLex : Dog → Dog → Prop := lexComb idLe (lexComb ageLe nameLe)

/-- Appending "_processed" n times, as the id field accumulates it. -/
def procIdN (s : String) : Nat → String
  | 0 => s
  | n + 1 => procIdN (s ++ "_processed") n

/-- The states of the housing service reachable from the seed through the
public operations (queries do not change state; the two mutating-shaped
operations are add_dog_house and assign_dog_to_house). -/
inductive ReachableHouse : DogHouseService → Prop where
  | init : ReachableHouse DogHouseService.new
  | add (house : DogHouse) {s : DogHouseService} :
      ReachableHouse s → ReachableHouse (s.add_dog_house house)
  | assign (dogId houseId : String) {s : DogHouseService} :
      ReachableHouse s → ReachableHouse (s.assign_dog_to_house dogId houseId)

/-! Order-theoretic facts about the string comparator. -/

/-- Case split for the string comparator on cons cells. -/
theorem charListLe_cons_iff {x y : Char} {xs ys : List Char} :
    charListLe (x :: xs) (y :: ys) = true ↔
      (x.toNat < y.toNat ∨ (x.toNat = y.toNat ∧ charListLe xs ys = true)) := by
  by_cases h1 : x.toNat < y.toNat
  · simp [charListLe, h1]
  · by_cases h2 : y.toNat < x.toNat
    · simp [charListLe, h1, h2]
      omega
    · have h3 : x.toNat = y.toNat := by omega
      simp [charListLe, h1, h2, h3]

/-- The string comparator is total. -/
theorem charListLe_total : ∀ (a b : List Char), charListLe a b = true ∨ charListLe b a = true
  | [], _ => Or.inl rfl
  | _ :: _, [] => Or.inr rfl
  | x :: xs, y :: ys => by
    rcases Nat.lt_trichotomy x.toNat y.toNat with h | h | h
    · exact Or.inl (charListLe_cons_iff.mpr (Or.inl h))
    · rcases charListLe_total xs ys with h2 | h2
      · exact Or.inl (charListLe_cons_iff.mpr (Or.inr ⟨h, h2⟩))
      · exact Or.inr (charListLe_cons_iff.mpr (Or.inr ⟨h.symm, h2⟩))
    · exact Or.inr (charListLe_cons_iff.mpr (Or.inl h))

/-- The string comparator is transitive. -/
theorem charListLe_trans : ∀ {a b c : List Char},
    charListLe a b = true → charListLe b c = true → charListLe a c = true
  | [], _, _, _, _ => rfl
  | _ :: _, [], _, h1, _ => by simp [charListLe] at h1
  | _ :: _, _ :: _, [], _, h2 => by simp [charListLe] at h2
  | x :: xs, y :: ys, z :: zs, h1, h2 => by
    rcases charListLe_cons_iff.mp h1 with hx | ⟨hx, hx'⟩ <;>
      rcases charListLe_cons_iff.mp h2 with hy | ⟨hy, hy'⟩
    · exact charListLe_cons_iff.mpr (Or.inl (by omega))
    · exact charListLe_cons_iff.mpr (Or.inl (by omega))
    · exact charListLe_cons_iff.mpr (Or.inl (by omega))
    · exact charListLe_cons_iff.mpr (Or.inr ⟨by omega, charListLe_trans hx' hy'⟩)

/-- The string comparator is antisymmetric. -/
theorem charListLe_antisymm : ∀ {a b : List Char},
    charListLe a b = true → charListLe b a = true → a = b
  | [], [], _, _ => rfl
  | [], _ :: _, _, h2 => by simp [charListLe] at h2
  | _ :: _, [], h1, _ => by simp [charListLe] at h1
  | x :: xs, y :: ys, h1, h2 => by
    rcases charListLe_cons_iff.mp h1 with hx | ⟨hx, hx'⟩ <;>
      rcases charListLe_cons_iff.mp h2 with hy | ⟨hy, hy'⟩ <;>
      try omega
    have hxy : x = y := by
      apply Char.eq_of_val_eq
      apply UInt32.ext
      exact hx
    rw [hxy, charListLe_antisymm hx' hy']

/-- strLeB is total. -/
theorem strLeB_total (a b : String) : strLeB a b = true ∨ strLeB b a = true :=
  charListLe_total a.data b.data

/-- strLeB is transitive. -/
theorem strLeB_trans {a b c : String} (h1 : strLeB a b = true) (h2 : strLeB b c = true) :
    strLeB a c = true :=
  charListLe_trans h1 h2

/-- strLeB is antisymmetric. -/
theorem strLeB_antisymm {a b : String} (h1 : strLeB a b = true) (h2 : strLeB b a = true) :
    a = b := by
  cases a with
  | mk da =>
    cases b with
    | mk db =>
      have : da = db := charListLe_antisymm h1 h2
      rw [this]

/-! A stable sort by key r of a list already sorted by key s leaves the
list sorted lexicographically by (r, then s). lexComb r s is that
lexicographic combination: a before b when r puts a at-or-before b, and
ties under r keep the s order. -/

/-- lexComb of transitive relations is transitive. -/
theorem lexComb_trans {r s : α → α → Prop}
    (hr : ∀ a b c, r a b → r b c → r a c) (hs : ∀ a b c, s a b → s b c → s a c) :
    ∀ a b c, lexComb r s a b → lexComb r s b c → lexComb r s a c := by
  intro a b c ⟨hab, hab'⟩ ⟨hbc, hbc'⟩
  refine ⟨hr a b c hab hbc, fun hca => ?_⟩
  have hba : r b a := hr b c a hbc hca
  have hcb : r c b := hr c a b hca hab
  exact hs a b c (hab' hba) (hbc' hcb)

/-- Inserting x into a q-pairwise list keeps it q-pairwise, provided q is
transitive and x compares against every member consistently with its
insertion point. -/
theorem pairwise_orderedInsert {r q : α → α → Prop} [DecidableRel r]
    (hq : ∀ a b c, q a b → q b c → q a c) (x : α) :
    ∀ (L : List α), L.Pairwise q → (∀ y ∈ L, (r x y → q x y) ∧ (¬r x y → q y x)) →
      (List.orderedInsert r x L).Pairwise q := by
  intro L
  induction L with
  | nil => intro _ _; simp
  | cons y L ih =>
    intro hL hmem
    rcases List.pairwise_cons.mp hL with ⟨hy, hL'⟩
    by_cases hxy : r x y
    · rw [List.orderedInsert, if_pos hxy]
      refine List.pairwise_cons.mpr ⟨?_, hL⟩
      intro z hz
      rcases List.mem_cons.mp hz with rfl | hz'
      · exact (hmem z (List.mem_cons_self z L)).1 hxy
      · exact hq x y z ((hmem y (List.mem_cons_self y L)).1 hxy) (hy z hz')
    · rw [List.orderedInsert, if_neg hxy]
      refine List.pairwise_cons.mpr
        ⟨?_, ih hL' (fun z hz => hmem z (List.mem_cons_of_mem y hz))⟩
      intro z hz
      rcases (List.mem_orderedInsert r).mp hz with rfl | hz'
      · exact (hmem y (List.mem_cons_self y L)).2 hxy
      · exact hy z hz'

/-- Stable insertion sort by key r of a list pairwise-sorted by key s
produces a list pairwise-sorted by lexComb r s. -/
theorem pairwise_insertionSort_lexComb {r s : α → α → Prop} [DecidableRel r]
    (hrtot : ∀ a b, r a b ∨ r b a)
    (hrtr : ∀ a b c, r a b → r b c → r a c)
    (hstr : ∀ a b c, s a b → s b c → s a c) :
    ∀ (L : List α), L.Pairwise s → (List.insertionSort r L).Pairwise (lexComb r s) := by
  intro L
  induction L with
  | nil => intro _; simp
  | cons x L ih =>
    intro hL
    rcases List.pairwise_cons.mp hL with ⟨hx, hL'⟩
    rw [List.insertionSort]
    apply pairwise_orderedInsert (lexComb_trans hrtr hstr) x _ (ih hL')
    intro y hy
    have hyL : y ∈ L := (List.mem_insertionSort r).mp hy
    constructor
    · intro hrxy
      exact ⟨hrxy, fun _ => hx y hyL⟩
    · intro hnrxy
      rcases hrtot x y with h | h
      · exact absurd h hnrxy
      · exact ⟨h, fun hxy => absurd hxy hnrxy⟩

/-! The triple sort of DogRepository::get_dogs. -/

theorem nameLe_total (a b : Dog) : nameLe a b ∨ nameLe b a := strLeB_total a.name b.name

theorem nameLe_trans (a b c : Dog) : nameLe a b → nameLe b c → nameLe a c := strLeB_trans

theorem ageLe_total (a b : Dog) : ageLe a b ∨ ageLe b a := Nat.le_total a.age b.age

theorem ageLe_trans (a b c : Dog) : ageLe a b → ageLe b c → ageLe a c := Nat.le_trans

theorem idLe_total (a b : Dog) : idLe a b ∨ idLe b a := strLeB_total a.id b.id

theorem idLe_trans (a b c : Dog) : idLe a b → idLe b c → idLe a c := strLeB_trans

/-- dogLex is antisymmetric because (id, age, name) determines the Dog. -/
theorem dogLex_antisymm : ∀ a b : Dog, dogLex a b → dogLex b a → a = b := by
  intro a b hab hba
  have hid : a.id = b.id := strLeB_antisymm hab.1 hba.1
  have h2 := hab.2 hba.1
  have h3 := hba.2 hab.1
  have hage : a.age = b.age := Nat.le_antisymm h2.1 h3.1
  have hname : a.name = b.name := strLeB_antisymm (h2.2 h3.1) (h3.2 h2.1)
  cases a
  cases b
  simp_all

/-- One triple-sort pass leaves the list pairwise ordered by dogLex, for
every input list. -/
theorem dogSortPass_pairwise (l : List Dog) : (dogSortPass l).Pairwise dogLex := by
  apply pairwise_insertionSort_lexComb idLe_total idLe_trans
    (lexComb_trans ageLe_trans nameLe_trans)
  apply pairwise_insertionSort_lexComb ageLe_total ageLe_trans nameLe_trans
  exact @List.sorted_insertionSort Dog nameLe _ ⟨nameLe_total⟩ ⟨nameLe_trans⟩ l

/-- One triple-sort pass permutes its input. -/
theorem dogSortPass_perm (l : List Dog) : List.Perm (dogSortPass l) l :=
  ((List.perm_insertionSort idLe _).trans (List.perm_insertionSort ageLe _)).trans
    (List.perm_insertionSort nameLe l)

/-- The triple-sort pass is idempotent: two sorted permutations of the
same list under an antisymmetric order are equal. -/
theorem dogSortPass_idem (l : List Dog) : dogSortPass (dogSortPass l) = dogSortPass l :=
  @List.eq_of_perm_of_sorted Dog dogLex ⟨dogLex_antisymm⟩ _ _
    (dogSortPass_perm (dogSortPass l))
    (dogSortPass_pairwise (dogSortPass l)) (dogSortPass_pairwise l)

/-- Iterating an idempotent function at least once equals one application. -/
theorem iterate_idem {α : Type _} {f : α → α} (hf : ∀ x, f (f x) = f x) (a : α) :
    ∀ n, f^[n + 1] a = f a := by
  intro n
  induction n with
  | zero => simp
  | succ k ih => rw [Function.iterate_succ_apply' f (k + 1) a, ih, hf]

/-- Iterating a permuting function permutes. -/
theorem iterate_perm {f : List α → List α} (hf : ∀ l, List.Perm (f l) l) (l : List α) :
    ∀ n, List.Perm (f^[n] l) l := by
  intro n
  induction n with
  | zero => simp
  | succ k ih => rw [Function.iterate_succ_apply']; exact (hf _).trans ih

/-! Consequences for DogRepository::get_dogs. -/

/-- The repository read is one thousand triple-sort passes, hence ends
with a pass: its output is dogLex-pairwise for every repository state. -/
theorem repo_get_dogs_pairwise (s : DogRepository) : (s.get_dogs).Pairwise dogLex := by
  show (dogSortPass^[1000] s.dogs).Pairwise dogLex
  rw [show (1000 : Nat) = 999 + 1 by norm_num, Function.iterate_succ_apply']
  exact dogSortPass_pairwise _

/-- The repository read permutes the stored dogs. -/
theorem repo_get_dogs_perm (s : DogRepository) : List.Perm s.get_dogs s.dogs :=
  iterate_perm dogSortPass_perm s.dogs 1000

/-! The DogService::get_dogs filter-map loop. -/

/-- Every member of one pass output has age strictly above one. -/
theorem mem_dogProcPass {x : Dog} {l : List Dog} (h : x ∈ dogProcPass l) : 1 < x.age := by
  rcases List.mem_map.mp h with ⟨y, hy, rfl⟩
  have hfy := List.of_mem_filter hy
  exact of_decide_eq_true hfy

/-- On a list of dogs all older than one, a pass is just the map. -/
theorem dogProcPass_eq_map {l : List Dog} (h : ∀ d ∈ l, 1 < d.age) :
    dogProcPass l = l.map dogTransform := by
  unfold dogProcPass
  rw [List.filter_eq_self.mpr fun a ha => decide_eq_true (h a ha)]

/-- On a list of dogs all older than one, n passes coincide with mapping
the n-fold per-element transform. -/
theorem dogProcPass_iterate (n : Nat) : ∀ (l : List Dog), (∀ d ∈ l, 1 < d.age) →
    dogProcPass^[n] l = l.map dogTransform^[n] := by
  induction n with
  | zero => intro l _; simp
  | succ k ih =>
    intro l hl
    rw [Function.iterate_succ_apply, dogProcPass_eq_map hl,
      ih (l.map dogTransform) ?_, List.map_map, ← Function.iterate_succ]
    intro d hd
    rcases List.mem_map.mp hd with ⟨y, hy, rfl⟩
    exact hl y hy

/-- DogService::get_dogs in closed form: the repository read, one age
filter, and the 500-fold per-element transform. -/
theorem serviceGetDogs_closed (s : DogService) :
    s.get_dogs =
      ((s.dog_repository.get_dogs).filter fun d => decide (1 < d.age)).map
        dogTransform^[500] := by
  show dogProcPass^[500] s.dog_repository.get_dogs = _
  rw [show (500 : Nat) = 499 + 1 by norm_num, Function.iterate_succ_apply,
    dogProcPass_iterate 499 _ (fun x hx => mem_dogProcPass hx)]
  unfold dogProcPass
  rw [List.map_map, ← Function.iterate_succ]

/-- Every dog DogService::get_dogs returns is older than one. -/
theorem mem_serviceGetDogs_age {s : DogService} {d : Dog} (h : d ∈ s.get_dogs) :
    1 < d.age := by
  have heq : s.get_dogs = dogProcPass (dogProcPass^[499] s.dog_repository.get_dogs) := by
    show dogProcPass^[500] _ = _
    rw [show (500 : Nat) = 499 + 1 by norm_num, Function.iterate_succ_apply']
  rw [heq] at h
  exact mem_dogProcPass h

/-! The n-fold per-element transform in closed form. -/

/-- The transform keeps the age. -/
theorem dogTransform_iterate_age (d : Dog) : ∀ n, (dogTransform^[n] d).age = d.age := by
  intro n
  induction n generalizing d with
  | zero => rfl
  | succ k ih => rw [Function.iterate_succ_apply]; exact ih (dogTransform d)

/-- The transform appends one "_processed" per iteration to the id. -/
theorem dogTransform_iterate_id (d : Dog) : ∀ n, (dogTransform^[n] d).id = procIdN d.id n := by
  intro n
  induction n generalizing d with
  | zero => rfl
  | succ k ih => rw [Function.iterate_succ_apply, ih (dogTransform d)]; rfl

/-- The transform uppercases the name on every iteration. -/
theorem dogTransform_iterate_name (d : Dog) :
    ∀ n, (dogTransform^[n] d).name = strUpper^[n] d.name := by
  intro n
  induction n generalizing d with
  | zero => rfl
  | succ k ih =>
    rw [Function.iterate_succ_apply, Function.iterate_succ_apply, ih (dogTransform d)]
    rfl

/-- Uppercasing "Luna" once or more always gives "LUNA". -/
theorem strUpper_iterate_luna (n : Nat) : strUpper^[n + 1] "Luna" = "LUNA" := by
  rw [Function.iterate_succ_apply, show strUpper "Luna" = "LUNA" from rfl]
  exact Function.iterate_fixed rfl n

/-- Length of the accumulated id. -/
theorem procIdN_length : ∀ (n : Nat) (s : String), (procIdN s n).length = s.length + 10 * n := by
  intro n
  induction n with
  | zero => intro s; simp [procIdN]
  | succ k ih =>
    intro s
    rw [procIdN, ih, String.length_append,
      show ("_processed" : String).length = 10 from rfl]
    omega

/-! Housing lemmas. -/

/-- Every reachable housing state is the empty seed state. -/
theorem reachableHouse_eq {s : DogHouseService} (h : ReachableHouse s) :
    s = DogHouseService.new := by
  induction h with
  | init => rfl
  | add house _ ih => exact ih
  | assign dogId houseId _ ih => exact ih

/-- The empty housing service answers every house lookup with none. -/
theorem get_dog_house_new (dogId : String) :
    DogHouseService.new.get_dog_house dogId = none := by
  show ((houseFilterPass dogId)^[200] []).head? = none
  rw [Function.iterate_fixed rfl 200]
  rfl

/-- The empty housing service has no available houses. -/
theorem get_available_houses_new : DogHouseService.new.get_available_houses = [] := by
  show availPass^[300] [] = []
  exact Function.iterate_fixed rfl 300

/-! The fallible sorts of the grooming and health add paths. -/

/-- F64.cmpO fails exactly on NaN operands. -/
theorem cmpO_eq_none_iff (a b : F64) :
    F64.cmpO a b = none ↔ (a.isNaN = true ∨ b.isNaN = true) := by
  cases a <;> cases b <;> simp [F64.isNaN, F64.cmpO]

/-- Fallible insertion succeeds when the new element compares against
every list member, and inserts nothing new. -/
theorem insertM_some {cmp : α → α → Option Ordering} {x : α} :
    ∀ {l : List α}, (∀ y ∈ l, cmp x y ≠ none) →
      ∃ l', insertM cmp x l = some l' ∧ ∀ y ∈ l', y = x ∨ y ∈ l := by
  intro l
  induction l with
  | nil => exact fun _ => ⟨[x], rfl, by simp⟩
  | cons b t ih =>
    intro h
    have hxb : cmp x b ≠ none := h b (List.mem_cons_self b t)
    rcases ho : cmp x b with _ | o
    · exact absurd ho hxb
    · cases o with
      | lt =>
        refine ⟨x :: b :: t, by simp [insertM, ho], ?_⟩
        intro y hy
        simpa using List.mem_cons.mp hy
      | eq =>
        refine ⟨x :: b :: t, by simp [insertM, ho], ?_⟩
        intro y hy
        simpa using List.mem_cons.mp hy
      | gt =>
        rcases ih (fun y hy => h y (List.mem_cons_of_mem b hy)) with ⟨t', ht, hsub⟩
        refine ⟨b :: t', by simp [insertM, ho, ht], ?_⟩
        intro y hy
        rcases List.mem_cons.mp hy with rfl | hy'
        · exact Or.inr (List.mem_cons_self y t)
        · rcases hsub y hy' with rfl | h2
          · exact Or.inl rfl
          · exact Or.inr (List.mem_cons_of_mem b h2)

/-- The fallible sort succeeds when every pair of members compares, and
its output members come from the input. -/
theorem sortByM_some {cmp : α → α → Option Ordering} :
    ∀ {l : List α}, (∀ x ∈ l, ∀ y ∈ l, cmp x y ≠ none) →
      ∃ l', sortByM cmp l = some l' ∧ ∀ y ∈ l', y ∈ l := by
  intro l
  induction l with
  | nil => exact fun _ => ⟨[], rfl, by simp⟩
  | cons a t ih =>
    intro h
    rcases ih (fun x hx y hy =>
      h x (List.mem_cons_of_mem a hx) y (List.mem_cons_of_mem a hy)) with ⟨t', ht, hsub⟩
    rcases insertM_some (x := a) (l := t')
      (fun y hy => h a (List.mem_cons_self a t) y (List.mem_cons_of_mem a (hsub y hy))) with
      ⟨l', hl, hsub2⟩
    refine ⟨l', by simp [sortByM, ht, hl], ?_⟩
    intro y hy
    rcases hsub2 y hy with rfl | hy'
    · exact List.mem_cons_self y t
    · exact List.mem_cons_of_mem a (hsub y hy')

/-- A fallible loop succeeds whenever the body preserves an invariant
that guarantees its own success. -/
theorem loopM_some {α : Type _} {f : α → Option α} {P : α → Prop}
    (hf : ∀ x, P x → ∃ y, f x = some y ∧ P y) :
    ∀ (n : Nat) (x : α), P x → ∃ y, loopM f n x = some y := by
  intro n
  induction n with
  | zero => exact fun x _ => ⟨x, rfl⟩
  | succ k ih =>
    intro x hx
    rcases hf x hx with ⟨y, hy, hPy⟩
    rcases ih y hPy with ⟨z, hz⟩
    exact ⟨z, by simp [loopM, hy, hz]⟩

/-- A fallible loop whose body fixes a point returns it. -/
theorem loopM_fixed {α : Type _} {f : α → Option α} {a : α} (h : f a = some a) :
    ∀ n, loopM f n a = some a := by
  intro n
  induction n with
  | zero => rfl
  | succ k ih => simp [loopM, h, ih]

/-- One grooming add pass succeeds on NaN-free records and keeps them
NaN-free. -/
theorem groomAddPass_some {l : List GroomingRecord} (h : ∀ r ∈ l, r.price.isNaN = false) :
    ∃ l', groomAddPass l = some l' ∧ ∀ r ∈ l', r.price.isNaN = false := by
  have h2 : ∀ x ∈ List.insertionSort gDateLe l, ∀ y ∈ List.insertionSort gDateLe l,
      gPriceCmp x y ≠ none := by
    intro x hx y hy hc
    rcases (cmpO_eq_none_iff x.price y.price).mp hc with hnan | hnan
    · rw [h x ((List.mem_insertionSort gDateLe).mp hx)] at hnan
      exact Bool.false_ne_true hnan
    · rw [h y ((List.mem_insertionSort gDateLe).mp hy)] at hnan
      exact Bool.false_ne_true hnan
  rcases sortByM_some h2 with ⟨l', hl, hsub⟩
  exact ⟨l', hl, fun r hr => h r ((List.mem_insertionSort gDateLe).mp (hsub r hr))⟩

/-- One health add pass succeeds on NaN-free records and keeps them
NaN-free. -/
theorem healthAddPass_some {l : List HealthRecord} (h : ∀ r ∈ l, r.weight.isNaN = false) :
    ∃ l', healthAddPass l = some l' ∧ ∀ r ∈ l', r.weight.isNaN = false := by
  have h2 : ∀ x ∈ List.insertionSort hDateLe l, ∀ y ∈ List.insertionSort hDateLe l,
      hWeightCmp x y ≠ none := by
    intro x hx y hy hc
    rcases (cmpO_eq_none_iff x.weight y.weight).mp hc with hnan | hnan
    · rw [h x ((List.mem_insertionSort hDateLe).mp hx)] at hnan
      exact Bool.false_ne_true hnan
    · rw [h y ((List.mem_insertionSort hDateLe).mp hy)] at hnan
      exact Bool.false_ne_true hnan
  rcases sortByM_some h2 with ⟨l', hl, hsub⟩
  exact ⟨l', hl, fun r hr => h r ((List.mem_insertionSort hDateLe).mp (hsub r hr))⟩

/-- add_grooming_record returns (with the service unchanged) whenever no
stored or added price is NaN. -/
theorem add_grooming_some {s : GroomingService} {r : GroomingRecord}
    (h : ∀ x ∈ s.records ++ [r], x.price.isNaN = false) :
    s.add_grooming_record r = some s := by
  rcases loopM_some (P := fun l => ∀ x ∈ l, x.price.isNaN = false)
    (f := groomAddPass) (fun l hl => groomAddPass_some hl) 500 _ h with ⟨y, hy⟩
  show (match loopM groomAddPass 500 (s.records ++ [r]) with
    | none => none
    | some _ => some s) = some s
  rw [hy]

/-- add_health_record returns (with the service unchanged) whenever no
stored or added weight is NaN. -/
theorem add_health_some {s : HealthService} {r : HealthRecord}
    (h : ∀ x ∈ s.records ++ [r], x.weight.isNaN = false) :
    s.add_health_record r = some s := by
  rcases loopM_some (P := fun l => ∀ x ∈ l, x.weight.isNaN = false)
    (f := healthAddPass) (fun l hl => healthAddPass_some hl) 400 _ h with ⟨y, hy⟩
  show (match loopM healthAddPass 400 (s.records ++ [r]) with
    | none => none
    | some _ => some s) = some s
  rw [hy]

/-- The seeded repository read returns the three dogs in id order (their
insertion order happens to be already sorted). -/
theorem seed_repo_get_dogs : seedAppState.dog_service.dog_repository.get_dogs = dogs0 :=
  Function.iterate_fixed (by decide) 1000

/-- C1. For identical seed data and an identical sequence of GET /stuff
requests, the static-dispatch and the dynamic-dispatch variant produce
identical JSON response trees (hence byte-identical serialized JSON),
and the two variants seed identical data. -/
theorem claim_C1 :
    (∀ (st : AppState) (n : Nat), Dyn.serveStuff n st = serveStuff n st) ∧
      Dyn.seedAppState = seedAppState := by
  have hdo : ∀ st : AppState, Dyn.do_stuff st = do_stuff st := fun st => rfl
  constructor
  · intro st n
    induction n generalizing st with
    | zero => rfl
    | succ k ih => rw [Dyn.serveStuff, serveStuff, hdo st, ih]
  · rfl

/-- C2. The auxiliary add operations never persist: whenever they return,
the backing collection is unchanged and an immediately following
history or list query on the same service answers exactly as before
the add. -/
theorem claim_C2 :
    (∀ (s : GroomingService) (r : GroomingRecord) (s' : GroomingService),
        s.add_grooming_record r = some s' →
          s'.records = s.records ∧
            ∀ dogId, s'.get_grooming_history dogId = s.get_grooming_history dogId) ∧
    (∀ (s : TrainingService) (r : TrainingRecord),
        (s.add_training_record r).records = s.records ∧
          ∀ dogId, (s.add_training_record r).get_training_history dogId =
            s.get_training_history dogId) ∧
    (∀ (s : HealthService) (r : HealthRecord) (s' : HealthService),
        s.add_health_record r = some s' →
          s'.records = s.records ∧
            ∀ dogId, s'.get_health_history dogId = s.get_health_history dogId) ∧
    (∀ (s : DogHouseService) (house : DogHouse),
        (s.add_dog_house house).houses = s.houses ∧
          (s.add_dog_house house).get_available_houses = s.get_available_houses) ∧
    (∀ (s : DogHouseService) (dogId houseId : String),
        (s.assign_dog_to_house dogId houseId).houses = s.houses ∧
          ∀ d, (s.assign_dog_to_house dogId houseId).get_dog_house d = s.get_dog_house d) := by
  refine ⟨?_, ?_, ?_, ?_, ?_⟩
  · intro s r s' h
    have hdef : s.add_grooming_record r =
        match loopM groomAddPass 500 (s.records ++ [r]) with
        | none => none
        | some _ => some s := rfl
    rcases hc : loopM groomAddPass 500 (s.records ++ [r]) with _ | v
    · rw [hdef, hc] at h
      exact absurd h (by simp)
    · rw [hdef, hc] at h
      cases Option.some.inj h
      exact ⟨rfl, fun _ => rfl⟩
  · intro s r
    exact ⟨rfl, fun _ => rfl⟩
  · intro s r s' h
    have hdef : s.add_health_record r =
        match loopM healthAddPass 400 (s.records ++ [r]) with
        | none => none
        | some _ => some s := rfl
    rcases hc : loopM healthAddPass 400 (s.records ++ [r]) with _ | v
    · rw [hdef, hc] at h
      exact absurd h (by simp)
    · rw [hdef, hc] at h
      cases Option.some.inj h
      exact ⟨rfl, fun _ => rfl⟩
  · intro s house
    exact ⟨rfl, rfl⟩
  · intro s dogId houseId
    exact ⟨rfl, fun _ => rfl⟩

/-- Witness for C2 at a concrete service and record. -/
theorem claim_C2_witness :
    GroomingService.new.add_grooming_record grec0 = some GroomingService.new ∧
    HealthService.new.add_health_record hrec0 = some HealthService.new ∧
    GroomingService.new.records = GroomingService.new.records ∧
    HealthService.new.records = HealthService.new.records := by
  have h1 : GroomingService.new.add_grooming_record grec0 = some GroomingService.new := by
    show (match loopM groomAddPass 500 (GroomingService.new.records ++ [grec0]) with
      | none => none
      | some _ => some GroomingService.new) = some GroomingService.new
    rw [loopM_fixed (rfl :
      groomAddPass (GroomingService.new.records ++ [grec0]) =
        some (GroomingService.new.records ++ [grec0])) 500]
  have h2 : HealthService.new.add_health_record hrec0 = some HealthService.new := by
    show (match loopM healthAddPass 400 (HealthService.new.records ++ [hrec0]) with
      | none => none
      | some _ => some HealthService.new) = some HealthService.new
    rw [loopM_fixed (rfl :
      healthAddPass (HealthService.new.records ++ [hrec0]) =
        some (HealthService.new.records ++ [hrec0])) 400]
  exact ⟨h1, h2, (claim_C2.1 _ _ _ h1).1, (claim_C2.2.2.1 _ _ _ h2).1⟩

/-- C3 as written is false: the id transform compounds across the 500
passes. At the concrete repository holding exactly the dog
(id "2", name "Luna", age 3), the output of DogService::get_dogs contains
no dog with id "2_processed" (the actual id carries 500 copies of the
suffix). -/
theorem claim_C3_counterexample :
    (⟨"2_processed", "LUNA", 3⟩ : Dog) ∉
      DogService.get_dogs ⟨⟨[⟨"2", "Luna", 3⟩]⟩⟩ := by
  intro hmem
  rw [serviceGetDogs_closed] at hmem
  have hrepo : (DogService.mk (DogRepository.mk [⟨"2", "Luna", 3⟩])).dog_repository.get_dogs =
      [⟨"2", "Luna", 3⟩] := Function.iterate_fixed rfl 1000
  rw [hrepo, show ([(⟨"2", "Luna", 3⟩ : Dog)].filter fun d => decide (1 < d.age)) =
    [⟨"2", "Luna", 3⟩] from rfl] at hmem
  rcases List.mem_map.mp hmem with ⟨y, hy, he⟩
  have hy' : y = ⟨"2", "Luna", 3⟩ := by simpa using hy
  subst hy'
  have hid : (dogTransform^[500] (⟨"2", "Luna", 3⟩ : Dog)).id = procIdN "2" 500 :=
    dogTransform_iterate_id _ 500
  rw [he] at hid
  dsimp only at hid
  have hlen : ("2_processed" : String).length = 5001 := by
    rw [hid, procIdN_length]
    decide
  exact absurd hlen (by decide)

/-- C3 amended: for every repository state containing a dog with id "2",
name "Luna" and age above one, DogService::get_dogs returns that dog with
name "LUNA" and age unchanged, but with an id carrying 500 copies of the
"_processed" suffix — the suffix transform is applied once per loop
iteration, not once in total (the name uppercasing and the age are
idempotent, so they match the original claim). -/
theorem claim_C3_amended (s : DogRepository) (a : Nat) (ha : 1 < a)
    (hmem : (⟨"2", "Luna", a⟩ : Dog) ∈ s.dogs) :
    (⟨procIdN "2" 500, "LUNA", a⟩ : Dog) ∈ DogService.get_dogs ⟨s⟩ := by
  rw [serviceGetDogs_closed]
  have h1 : (⟨"2", "Luna", a⟩ : Dog) ∈ (DogService.mk s).dog_repository.get_dogs :=
    (repo_get_dogs_perm s).mem_iff.mpr hmem
  have h2 : (⟨"2", "Luna", a⟩ : Dog) ∈
      ((DogService.mk s).dog_repository.get_dogs).filter fun d => decide (1 < d.age) :=
    List.mem_filter.mpr ⟨h1, decide_eq_true ha⟩
  have h3 := List.mem_map_of_mem dogTransform^[500] h2
  have heq : dogTransform^[500] (⟨"2", "Luna", a⟩ : Dog) = ⟨procIdN "2" 500, "LUNA", a⟩ := by
    have hid := dogTransform_iterate_id (⟨"2", "Luna", a⟩ : Dog) 500
    have hname := dogTransform_iterate_name (⟨"2", "Luna", a⟩ : Dog) 500
    have hage := dogTransform_iterate_age (⟨"2", "Luna", a⟩ : Dog) 500
    have hluna : strUpper^[500] "Luna" = "LUNA" := by
      rw [show (500 : Nat) = 499 + 1 by norm_num]
      exact strUpper_iterate_luna 499
    rcases e : dogTransform^[500] (⟨"2", "Luna", a⟩ : Dog) with ⟨i, nm, ag⟩
    rw [e] at hid hname hage
    dsimp only at hid hname hage
    rw [hluna] at hname
    rw [hid, hname, hage]
  rw [heq] at h3
  exact h3

/-- Witness for the amended C3 at the one-dog repository. -/
theorem claim_C3_witness :
    (⟨procIdN "2" 500, "LUNA", 3⟩ : Dog) ∈
      DogService.get_dogs ⟨⟨[⟨"2", "Luna", 3⟩]⟩⟩ :=
  claim_C3_amended ⟨[⟨"2", "Luna", 3⟩]⟩ 3 (by decide) (by decide)

/-- C4. The canonical end-to-end run: seed exactly Max, Luna and Charlie,
perform no other operation, serve GET /stuff once; the response has
available_houses equal to the empty array and dogs_info of length 3
(all three dogs pass the age filter). -/
theorem claim_C4 :
    ∃ infos : List Json, infos.length = 3 ∧
      (do_stuff seedAppState).fst =
        Json.obj [("available_houses", Json.arr []), ("dogs_info", Json.arr infos)] := by
  refine ⟨(seedAppState.dog_service.get_dogs).map (dogInfoJson seedAppState), ?_, ?_⟩
  · rw [List.length_map, serviceGetDogs_closed, List.length_map, seed_repo_get_dogs]
    decide
  · show Json.obj
      [("available_houses", Json.arr
          ((seedAppState.dog_house_service.get_available_houses).map DogHouse.toJson)),
        ("dogs_info", Json.arr
          ((seedAppState.dog_service.get_dogs).map (dogInfoJson seedAppState)))] = _
    have h1 : seedAppState.dog_house_service = DogHouseService.new := rfl
    rw [h1, get_available_houses_new]
    rfl

/-- C5. The dogs the repository returns are sorted by id ascending (the id
sort is the last of the three stable sorts), and the dogs_info entries of
the do_stuff response follow exactly that repository order: they are the
per-dog records of the age-filtered repository output, in order. -/
theorem claim_C5 :
    (∀ s : DogRepository, (s.get_dogs).Pairwise idLe) ∧
    (∀ svc : DogService,
        svc.get_dogs =
          ((svc.dog_repository.get_dogs).filter fun d => decide (1 < d.age)).map
            dogTransform^[500]) ∧
    (∀ st : AppState,
        (do_stuff st).fst =
          Json.obj [("available_houses", Json.arr
              ((st.dog_house_service.get_available_houses).map DogHouse.toJson)),
            ("dogs_info", Json.arr ((st.dog_service.get_dogs).map (dogInfoJson st)))]) := by
  refine ⟨?_, ?_, ?_⟩
  · intro s
    exact (repo_get_dogs_pairwise s).imp fun h => h.1
  · exact serviceGetDogs_closed
  · intro st
    rfl

/-- C6. DogService::get_dogs excludes every dog of age at most one: every
returned dog has age strictly greater than one. -/
theorem claim_C6 :
    ∀ svc : DogService, (svc.get_dogs).all (fun d => decide (1 < d.age)) = true := by
  intro svc
  rw [List.all_eq_true]
  intro d hd
  exact decide_eq_true (mem_serviceGetDogs_age hd)

/-- C7. The price and weight comparators of add_grooming_record and
add_health_record abort exactly when a compared price or weight is NaN,
and under the precondition that no stored or added price or weight is
NaN the two operations always return (with the service unchanged):
they have no other failure mode. -/
theorem claim_C7 :
    (∀ a b : GroomingRecord,
        gPriceCmp a b = none ↔ (a.price.isNaN = true ∨ b.price.isNaN = true)) ∧
    (∀ a b : HealthRecord,
        hWeightCmp a b = none ↔ (a.weight.isNaN = true ∨ b.weight.isNaN = true)) ∧
    (∀ (s : GroomingService) (r : GroomingRecord),
        (∀ x ∈ s.records ++ [r], x.price.isNaN = false) →
          s.add_grooming_record r = some s) ∧
    (∀ (s : HealthService) (r : HealthRecord),
        (∀ x ∈ s.records ++ [r], x.weight.isNaN = false) →
          s.add_health_record r = some s) :=
  ⟨fun a b => cmpO_eq_none_iff a.price b.price,
   fun a b => cmpO_eq_none_iff a.weight b.weight,
   fun _ _ h => add_grooming_some h,
   fun _ _ h => add_health_some h⟩

/-- Witness for C7: the NaN-free adds succeed on concrete records. -/
theorem claim_C7_witness :
    GroomingService.new.add_grooming_record grec0 = some GroomingService.new ∧
    HealthService.new.add_health_record hrec0 = some HealthService.new :=
  ⟨claim_C7.2.2.1 GroomingService.new grec0 (by decide),
   claim_C7.2.2.2 HealthService.new hrec0 (by decide)⟩

/-- C8. In every housing-service state reachable from the empty seed by
the public operations, get_dog_house answers none for every dog id,
because add_dog_house and assign_dog_to_house never persist. -/
theorem claim_C8 :
    ∀ s : DogHouseService, ReachableHouse s → ∀ dogId, s.get_dog_house dogId = none := by
  intro s h dogId
  rw [reachableHouse_eq h]
  exact get_dog_house_new dogId

/-- Witness for C8 at the seed state. -/
theorem claim_C8_witness : DogHouseService.new.get_dog_house "1" = none :=
  claim_C8 DogHouseService.new ReachableHouse.init "1"

/-- C9. Running the triple stable sort of DogRepository::get_dogs 1000
times yields the same list as running it exactly once, on every input
(and get_dogs is therefore one triple-sort pass over the stored dogs). -/
theorem claim_C9 :
    (∀ l : List Dog, dogSortPass^[1000] l = dogSortPass l) ∧
    (∀ s : DogRepository, s.get_dogs = dogSortPass s.dogs) := by
  have h : ∀ l : List Dog, dogSortPass^[1000] l = dogSortPass l := by
    intro l
    rw [show (1000 : Nat) = 999 + 1 by norm_num]
    exact iterate_idem dogSortPass_idem l 999
  exact ⟨h, fun s => h s.dogs⟩

/-- C10. do_stuff is read-only and deterministic: it returns the
application state unchanged, and on equal states it produces equal JSON
responses. -/
theorem claim_C10 :
    ∀ st : AppState, (do_stuff st).snd = st ∧
      ∀ st' : AppState, st = st' → (do_stuff st).fst = (do_stuff st').fst :=
  fun _ => ⟨rfl, fun _ h => by rw [h]⟩

/-- Witness for C10 at the seeded state. -/
theorem claim_C10_witness :
    (do_stuff seedAppState).snd = seedAppState ∧
      (do_stuff seedAppState).fst = (do_stuff seedAppState).fst :=
  ⟨(claim_C10 seedAppState).1, (claim_C10 seedAppState).2 seedAppState rfl⟩
